import Mathlib

/-!
# Verification of the tiankit orchestrator core

Shallow embedding of the tiankit event-sourced orchestrator
(`tiangong/core`): the canonical codec (`protocol.py`), the state
manager (`state_manager.py`), the reducer (`reducer.py`) and the
orchestrator tick helpers (`orchestrator.py`), together with theorems
settling the specification claims about them.

Embedding conventions:
* JSON values are modelled by the inductive type `Json`; Python dicts
  are association lists (first occurrence wins on lookup, as parsed
  JSON objects have unique keys).
* Machine integers are `Nat` with explicit `% 2 ^ 32` style masking in
  the CRC computation.
* Filesystem state is explicit: the state manager acts on an
  `SM.SMState` record holding the persisted log, the idempotency
  index and the sequence file.
* Python exceptions are modelled with `Except`.
* Wall-clock values that the orchestrator compares are modelled as
  integers (seconds); identifier generation (`uuid4`) is threaded as
  an explicit argument.
-/

namespace Tiankit

/-! ## Canonical codec (`tiangong/core/protocol.py`) -/

/-- JSON values as manipulated by the codec.  Numbers are integers:
the events written by the core carry only integer numerics. -/
inductive Json where
  | null : Json
  | bool (b : Bool) : Json
  | num (n : Int) : Json
  | str (s : String) : Json
  | arr (xs : List Json) : Json
  | obj (kvs : List (String × Json)) : Json
deriving Repr

mutual
/-- Boolean equality on JSON values. -/
def beqJson : Json → Json → Bool
  | .null, .null => true
  | .bool a, .bool b => a == b
  | .num a, .num b => a == b
  | .str a, .str b => a == b
  | .arr a, .arr b => beqJsonList a b
  | .obj a, .obj b => beqJsonObj a b
  | _, _ => false

def beqJsonList : List Json → List Json → Bool
  | [], [] => true
  | x :: xs, y :: ys => beqJson x y && beqJsonList xs ys
  | _, _ => false

def beqJsonObj : List (String × Json) → List (String × Json) → Bool
  | [], [] => true
  | (k, v) :: xs, (k', v') :: ys => k == k' && beqJson v v' && beqJsonObj xs ys
  | _, _ => false
end

instance : BEq Json := ⟨beqJson⟩

mutual
theorem beqJson_refl : ∀ a, beqJson a a = true
  | .null => rfl
  | .bool b => by simp [beqJson]
  | .num n => by simp [beqJson]
  | .str s => by simp [beqJson]
  | .arr xs => by simp [beqJson]; exact beqJsonList_refl xs
  | .obj kvs => by simp [beqJson]; exact beqJsonObj_refl kvs

theorem beqJsonList_refl : ∀ l, beqJsonList l l = true
  | [] => rfl
  | x :: xs => by
    simp [beqJsonList]
    exact ⟨beqJson_refl x, beqJsonList_refl xs⟩

theorem beqJsonObj_refl : ∀ l, beqJsonObj l l = true
  | [] => rfl
  | (k, v) :: xs => by
    simp [beqJsonObj]
    exact ⟨beqJson_refl v, beqJsonObj_refl xs⟩
end

mutual
theorem eq_of_beqJson : ∀ a b, beqJson a b = true → a = b
  | .null, .null, _ => rfl
  | .bool a, .bool b, h => by simp [beqJson] at h; simp [h]
  | .num a, .num b, h => by simp [beqJson] at h; simp [h]
  | .str a, .str b, h => by simp [beqJson] at h; simp [h]
  | .arr a, .arr b, h => by
    simp only [beqJson] at h
    exact congrArg Json.arr (eq_of_beqJsonList a b h)
  | .obj a, .obj b, h => by
    simp only [beqJson] at h
    exact congrArg Json.obj (eq_of_beqJsonObj a b h)

theorem eq_of_beqJsonList : ∀ a b, beqJsonList a b = true → a = b
  | [], [], _ => rfl
  | x :: xs, y :: ys, h => by
    simp only [beqJsonList, Bool.and_eq_true] at h
    rw [eq_of_beqJson x y h.1, eq_of_beqJsonList xs ys h.2]

theorem eq_of_beqJsonObj : ∀ a b, beqJsonObj a b = true → a = b
  | [], [], _ => rfl
  | (k, v) :: xs, (k', v') :: ys, h => by
    simp only [beqJsonObj, Bool.and_eq_true] at h
    obtain ⟨⟨hk, hv⟩, hrest⟩ := h
    rw [eq_of_beqJson v v' hv, eq_of_beqJsonObj xs ys hrest, eq_of_beq hk]
end

instance : LawfulBEq Json where
  eq_of_beq h := eq_of_beqJson _ _ h
  rfl := beqJson_refl _

instance : DecidableEq Json := fun a b =>
  decidable_of_iff (beqJson a b = true)
    ⟨eq_of_beqJson a b, fun h => h ▸ beqJson_refl a⟩

/-- Python truthiness of a JSON value (`if not crc`, `payload.get(..) or ..`). -/
def truthy : Json → Bool
  | .null => false
  | .bool b => b
  | .num n => n != 0
  | .str s => s != ""
  | .arr xs => !xs.isEmpty
  | .obj kvs => !kvs.isEmpty

/-- Dict lookup (`event.get(k)`), first occurrence. -/
def lookupKey (e : List (String × Json)) (k : String) : Option Json :=
  match e with
  | [] => none
  | (k', v) :: rest => if k' = k then some v else lookupKey rest k

/-- Dict update `{**event, k: v}`: replace the value of `k` in place if
present, append otherwise. -/
def setKey (e : List (String × Json)) (k : String) (v : Json) : List (String × Json) :=
  match e with
  | [] => [(k, v)]
  | (k', v') :: rest => if k' = k then (k, v) :: rest else (k', v') :: setKey rest k v

/-- Two lowercase hex digits (for `\u00xx` escapes). -/
def hexDigitLower (n : Nat) : Char :=
  if n < 10 then Char.ofNat ('0'.toNat + n) else Char.ofNat ('a'.toNat + (n - 10))

/-- JSON string escaping as performed by `json.dumps(ensure_ascii=False)`:
backslash, quote and ASCII control characters are escaped, everything
else (including non-ASCII) is preserved. -/
def escapeChar (c : Char) : String :=
  if c = '\\' then "\\\\"
  else if c = '"' then "\\\""
  else if c = '\x08' then "\\b"
  else if c = '\x09' then "\\t"
  else if c = '\x0a' then "\\n"
  else if c = '\x0c' then "\\f"
  else if c = '\x0d' then "\\r"
  else if c.toNat < 0x20 then
    "\\u00" ++ String.mk [hexDigitLower (c.toNat / 16), hexDigitLower (c.toNat % 16)]
  else String.singleton c

/-- Serialize a string with quotes and escapes. -/
def encStr (s : String) : String :=
  "\"" ++ String.join (s.data.map escapeChar) ++ "\""

mutual
/-- Recursively sort all object keys (the effect of
`json.dumps(sort_keys=True)` on the tree). -/
def sortJson : Json → Json
  | .null => .null
  | .bool b => .bool b
  | .num n => .num n
  | .str s => .str s
  | .arr xs => .arr (sortJsonList xs)
  | .obj kvs => .obj (List.insertionSort (fun a b => a.1 ≤ b.1) (sortJsonObj kvs))

def sortJsonList : List Json → List Json
  | [] => []
  | x :: xs => sortJson x :: sortJsonList xs

def sortJsonObj : List (String × Json) → List (String × Json)
  | [] => []
  | (k, v) :: rest => (k, sortJson v) :: sortJsonObj rest
end

mutual
/-- Serialize with no whitespace between tokens
(`separators=(",", ":")`); object keys are emitted in the given order,
so it is applied after `sortJson`. -/
def serialize : Json → String
  | .null => "null"
  | .bool true => "true"
  | .bool false => "false"
  | .num n => toString n
  | .str s => encStr s
  | .arr xs => "[" ++ serializeItems xs ++ "]"
  | .obj kvs => "\x7b" ++ serializeMembers kvs ++ "\x7d"

def serializeItems : List Json → String
  | [] => ""
  | [x] => serialize x
  | x :: xs => serialize x ++ "," ++ serializeItems xs

def serializeMembers : List (String × Json) → String
  | [] => ""
  | [(k, v)] => encStr k ++ ":" ++ serialize v
  | (k, v) :: kvs => encStr k ++ ":" ++ serialize v ++ "," ++ serializeMembers kvs
end

/-- `canonical_json(event)`: canonical JSON string of the event with
`crc32` forced to the empty string, keys sorted, no whitespace,
Unicode preserved (protocol.py lines 9–11). -/
def canonical_json (event : List (String × Json)) : String :=
  serialize (sortJson (Json.obj (setKey event "crc32" (Json.str ""))))

/-- UTF-8 bytes of a string, as `Nat`s below 256. -/
def utf8Bytes (s : String) : List Nat :=
  s.toUTF8.toList.map (fun b => b.toNat)

/-- One bit step of the reflected CRC-32 (IEEE) with polynomial
`0xEDB88320`. -/
def crcStep (c : Nat) : Nat :=
  if c % 2 = 1 then (c / 2) ^^^ 0xEDB88320 else c / 2

/-- Process one byte. -/
def crcByte (c b : Nat) : Nat := crcStep^[8] (c ^^^ b)

/-- `zlib.crc32` over a byte list (init `0xFFFFFFFF`, final xor). -/
def crc32 (bytes : List Nat) : Nat :=
  (bytes.foldl crcByte 0xFFFFFFFF) ^^^ 0xFFFFFFFF

/-- Uppercase hex digit. -/
def hexDigitUpper (n : Nat) : Char :=
  if n < 10 then Char.ofNat ('0'.toNat + n) else Char.ofNat ('A'.toNat + (n - 10))

/-- Serialize a CRC as exactly 8 uppercase hex digits (`f"{crc:08X}"`). -/
def toHex8 (n : Nat) : String :=
  String.mk ([7, 6, 5, 4, 3, 2, 1, 0].map (fun i => hexDigitUpper (n / 16 ^ i % 16)))

/-- `compute_crc32(event)` (protocol.py lines 18–20). -/
def compute_crc32 (event : List (String × Json)) : String :=
  toHex8 (crc32 (utf8Bytes (canonical_json event)))

/-- `verify_crc32(event)` (protocol.py lines 23–30): missing or falsy
`crc32` fails; otherwise the stored value is compared with the
recomputed one.  The embedding is a total function, mirroring the
source's catch-all that can only return a boolean. -/
def verify_crc32 (event : List (String × Json)) : Bool :=
  match lookupKey event "crc32" with
  | none => false
  | some v => if !truthy v then false else v == Json.str (compute_crc32 event)

/-- The record persisted by `append_event`:
`event["crc32"] = compute_crc32(event)` (state_manager.py line 202). -/
def stored_event (event : List (String × Json)) : List (String × Json) :=
  setKey event "crc32" (Json.str (compute_crc32 event))

/-! ### Codec lemmas -/

theorem lookupKey_setKey (e : List (String × Json)) (k : String) (v : Json) :
    lookupKey (setKey e k v) k = some v := by
  induction e with
  | nil => simp [setKey, lookupKey]
  | cons hd tl ih =>
    obtain ⟨k', v'⟩ := hd
    by_cases h : k' = k
    · simp [setKey, h, lookupKey]
    · simp [setKey, h, lookupKey, ih]

theorem setKey_setKey (e : List (String × Json)) (k : String) (v w : Json) :
    setKey (setKey e k v) k w = setKey e k w := by
  induction e with
  | nil => simp [setKey]
  | cons hd tl ih =>
    obtain ⟨k', v'⟩ := hd
    by_cases h : k' = k
    · simp [setKey, h]
    · simp [setKey, h, ih]

theorem toHex8_ne_empty (n : Nat) : toHex8 n ≠ "" := by
  intro h
  have := congrArg String.data h
  simp [toHex8] at this

theorem compute_crc32_stored (event : List (String × Json)) :
    compute_crc32 (stored_event event) = compute_crc32 event := by
  unfold compute_crc32 canonical_json stored_event
  rw [setKey_setKey]

/-- C4: every event persisted by `append_event` verifies: the stored
`crc32` field equals the 8-uppercase-hex-digit CRC-32 of the UTF-8
bytes of the canonical encoding (keys sorted, no whitespace, Unicode
preserved) computed with the `crc32` field forced to the empty string,
so `verify_crc32` of the stored record returns `true`. -/
theorem crc_of_stored_event_verifies (event : List (String × Json)) :
    verify_crc32 (stored_event event) = true := by
  unfold verify_crc32
  rw [show lookupKey (stored_event event) "crc32"
        = some (Json.str (compute_crc32 event)) from lookupKey_setKey ..]
  have hne : compute_crc32 event ≠ "" := toHex8_ne_empty _
  simp only [truthy, compute_crc32_stored]
  rw [if_neg]
  · exact beqJson_refl _
  · simp [hne]

/-- C10: `verify_crc32` is total and tolerates absence of the `crc32`
field: it is a total boolean function, and an event whose `crc32`
field is missing (or empty) does not verify as valid. -/
theorem verify_crc32_total_and_missing_field (event : List (String × Json))
    (h : lookupKey event "crc32" = none ∨ lookupKey event "crc32" = some (Json.str "")) :
    verify_crc32 event = false := by
  rcases h with h | h <;> simp [verify_crc32, h, truthy]

/-- Witness for C10: the empty event dictionary, and an event whose
`crc32` field holds the empty string, both fail verification. -/
theorem verify_crc32_total_and_missing_field_witness :
    verify_crc32 [] = false ∧ verify_crc32 [("crc32", Json.str "")] = false :=
  ⟨verify_crc32_total_and_missing_field [] (Or.inl rfl),
   verify_crc32_total_and_missing_field [("crc32", Json.str "")] (Or.inr rfl)⟩

/-! ## State manager (`tiangong/core/state_manager.py`)

`StateManager.append_event` acts on three persisted artifacts: the
event log `audit/events.ndjson`, the idempotency index
`derived/idempotency-index.json` and `derived/sequence.json`.  They
are modelled explicitly as `SMState`.  The uuid4 `eventId` and the
`utc_now()` timestamp filled by `setdefault` are threaded as explicit
arguments.  The `crc32` field set on the serialized line (line 202 of
the source) is the codec operation `stored_event` proved above; the
state-manager record model carries the logical fields. -/

namespace SM

/-- An event as passed to `append_event`; `none` marks an absent key. -/
structure InEvent where
  type : String := ""
  project : Option String := none
  taskId : Option String := none
  runId : Option String := none
  payload : Json := Json.obj []
  idempotencyKey : Option String := none
  eventId : Option String := none
  schemaVersion : Option Int := none
  sequenceNumber : Option Nat := none
  at_ : Option String := none
  causationId : Option String := none
  correlationId : Option String := none
deriving Repr, DecidableEq

/-- A record persisted as one line of `events.ndjson` (with the
`setdefault` fields filled in). -/
structure Rec where
  type : String
  project : Option String
  taskId : Option String
  runId : Option String
  payload : Json
  idempotencyKey : String
  eventId : String
  schemaVersion : Int
  sequenceNumber : Nat
  at_ : String
  causationId : Option String
  correlationId : Option String
deriving Repr, DecidableEq

/-- The persisted state of one project as seen by the state manager. -/
structure SMState where
  log : List Rec := []
  indexKeys : List (String × Nat) := []
  seqFile : Option Nat := none
deriving Repr, DecidableEq

/-- A fresh project: no log, no index, no sequence file. -/
def freshSM : SMState := {}

/-- Membership in the idempotency index (`if key in keys`). -/
def idxMem (idx : List (String × Nat)) (k : String) : Bool :=
  match idx with
  | [] => false
  | (k', _) :: rest => k' == k || idxMem rest k

/-- Dict assignment `keys[key] = seq`. -/
def idxSet (idx : List (String × Nat)) (k : String) (v : Nat) : List (String × Nat) :=
  match idx with
  | [] => [(k, v)]
  | (k', v') :: rest => if k' = k then (k, v) :: rest else (k', v') :: idxSet rest k v

/-- `_read_last_sequence` (state_manager.py lines 139–177): primary
source is `sequence.json`; fallback is the `sequenceNumber` of the
last log line, `0` when the log is empty. -/
def read_last_sequence (s : SMState) : Nat :=
  match s.seqFile with
  | some n => n
  | none =>
    match s.log.getLast? with
    | some r => r.sequenceNumber
    | none => 0

/-- Result of `append_event`: `{"status": "appended", "event": event}`
or `{"status": "deduped", "event": None}`. -/
inductive AppendResult where
  | appended (r : Rec)
  | deduped
deriving Repr, DecidableEq

/-- `append_event` (state_manager.py lines 182–214).  A missing
`idempotencyKey` raises `ValueError`; a key already present in the
index dedupes without any write; otherwise the next sequence number is
`_read_last_sequence() + 1`, missing fields are filled via
`setdefault`, the record is appended and the index and sequence file
are updated. -/
def append_event (freshId : String) (now : String) (s : SMState) (e : InEvent) :
    Except String (SMState × AppendResult) :=
  match e.idempotencyKey with
  | none => .error "idempotencyKey is required"
  | some key =>
    if idxMem s.indexKeys key then .ok (s, .deduped)
    else
      let seq := read_last_sequence s + 1
      let r : Rec :=
        { type := e.type
          project := e.project
          taskId := e.taskId
          runId := e.runId
          payload := e.payload
          idempotencyKey := key
          eventId := e.eventId.getD freshId
          schemaVersion := e.schemaVersion.getD 1
          sequenceNumber := e.sequenceNumber.getD seq
          at_ := e.at_.getD now
          causationId := e.causationId
          correlationId := e.correlationId }
      .ok ({ log := s.log ++ [r]
             indexKeys := idxSet s.indexKeys key seq
             seqFile := some seq }, .appended r)

/-- Fold a batch of `append_event` calls; each call comes with the
fresh `eventId` and timestamp it would draw.  A raised `ValueError`
leaves the state untouched. -/
def appendMany (s : SMState) (xs : List (InEvent × String × String)) : SMState :=
  xs.foldl
    (fun st x =>
      match append_event x.2.1 x.2.2 st x.1 with
      | .ok (st', _) => st'
      | .error _ => st) s

theorem idxMem_idxSet_self (idx : List (String × Nat)) (k : String) (v : Nat) :
    idxMem (idxSet idx k v) k = true := by
  induction idx with
  | nil => simp [idxSet, idxMem]
  | cons hd tl ih =>
    obtain ⟨k', v'⟩ := hd
    by_cases h : k' = k
    · simp [idxSet, h, idxMem]
    · simp [idxSet, h, idxMem, ih]

theorem idxMem_idxSet_of_mem (idx : List (String × Nat)) (k k' : String) (v : Nat)
    (h : idxMem idx k' = true) : idxMem (idxSet idx k v) k' = true := by
  induction idx with
  | nil => simp [idxMem] at h
  | cons hd tl ih =>
    obtain ⟨k0, v0⟩ := hd
    by_cases hk : k0 = k
    · subst hk
      simp only [idxMem, Bool.or_eq_true, beq_iff_eq] at h
      rcases h with h | h
      · simp [idxSet, idxMem, h]
      · simp [idxSet, idxMem, h]
    · simp only [idxMem, Bool.or_eq_true] at h
      rcases h with h | h
      · simp [idxSet, hk, idxMem, h]
      · simp [idxSet, hk, idxMem, ih h]

/-! ### C2: idempotent append -/

/-- C2: `append_event` is idempotent in the `idempotencyKey`.  With
key `k` not yet recorded (neither in the index nor carried by any
persisted record), a first append persists the event; a second append
with the same key (any payload) returns `deduped` with `event = None`
and leaves the state untouched; exactly one record carrying `k` is
persisted, namely the first, and the sequence file's `lastSequence`
has increased by exactly 1. -/
theorem append_event_deduplicates
    (s : SMState) (e1 e2 : InEvent) (k id1 t1 id2 t2 : String)
    (hk1 : e1.idempotencyKey = some k) (hk2 : e2.idempotencyKey = some k)
    (hidx : idxMem s.indexKeys k = false)
    (hlog : ∀ r ∈ s.log, r.idempotencyKey ≠ k) :
    ∃ s1 r1,
      append_event id1 t1 s e1 = .ok (s1, .appended r1) ∧
      append_event id2 t2 s1 e2 = .ok (s1, .deduped) ∧
      s1.log.filter (fun r => r.idempotencyKey == k) = [r1] ∧
      r1.payload = e1.payload ∧
      read_last_sequence s1 = read_last_sequence s + 1 ∧
      s1.seqFile = some (read_last_sequence s + 1) := by
  refine ⟨{ log := s.log ++
              [{ type := e1.type, project := e1.project, taskId := e1.taskId,
                 runId := e1.runId, payload := e1.payload, idempotencyKey := k,
                 eventId := e1.eventId.getD id1, schemaVersion := e1.schemaVersion.getD 1,
                 sequenceNumber := e1.sequenceNumber.getD (read_last_sequence s + 1),
                 at_ := e1.at_.getD t1, causationId := e1.causationId,
                 correlationId := e1.correlationId }]
            indexKeys := idxSet s.indexKeys k (read_last_sequence s + 1)
            seqFile := some (read_last_sequence s + 1) },
          { type := e1.type, project := e1.project, taskId := e1.taskId,
            runId := e1.runId, payload := e1.payload, idempotencyKey := k,
            eventId := e1.eventId.getD id1, schemaVersion := e1.schemaVersion.getD 1,
            sequenceNumber := e1.sequenceNumber.getD (read_last_sequence s + 1),
            at_ := e1.at_.getD t1, causationId := e1.causationId,
            correlationId := e1.correlationId },
          ?_, ?_, ?_, ?_, ?_, ?_⟩
  · simp [append_event, hk1, hidx]
  · simp only [append_event, hk2]
    rw [if_pos (idxMem_idxSet_self ..)]
  · rw [List.filter_append]
    rw [List.filter_eq_nil_iff.2 (fun r hr => by simp [hlog r hr])]
    simp
  · rfl
  · simp [read_last_sequence]
  · rfl

/-- Concrete inputs for the C2 witness: two events sharing the
idempotency key `"k"` but with different payloads. -/
def c2_ev1 : InEvent := { type := "A", idempotencyKey := some "k", payload := Json.str "p1" }

def c2_ev2 : InEvent := { type := "B", idempotencyKey := some "k", payload := Json.str "p2" }

/-- Witness for C2 at a fresh project. -/
theorem append_event_deduplicates_witness :
    ∃ s1 r1,
      append_event "e-1" "t1" freshSM c2_ev1 = .ok (s1, .appended r1) ∧
      append_event "e-2" "t2" s1 c2_ev2 = .ok (s1, .deduped) ∧
      s1.log.filter (fun r => r.idempotencyKey == "k") = [r1] ∧
      r1.payload = c2_ev1.payload ∧
      read_last_sequence s1 = read_last_sequence freshSM + 1 ∧
      s1.seqFile = some (read_last_sequence freshSM + 1) :=
  append_event_deduplicates freshSM c2_ev1 c2_ev2 "k" "e-1" "t1" "e-2" "t2"
    rfl rfl rfl (fun r hr => absurd hr (by simp [freshSM]))

/-! ### C3: sequence-number contiguity -/

/-- An append input that presets its own `sequenceNumber`:
`append_event` only fills the field via `setdefault`
(state_manager.py line 199), so the preset value is persisted. -/
def c3_preset_input : InEvent :=
  { type := "TEST", idempotencyKey := some "k1", sequenceNumber := some 5 }

/-- The state after appending `c3_preset_input` to a fresh project. -/
def c3_state : SMState :=
  match append_event "e-1" "t0" freshSM c3_preset_input with
  | .ok (st, _) => st
  | .error _ => freshSM

/-- Counterexample to C3 as stated: on a fresh project, one successful
`append_event` call whose event carries `sequenceNumber = 5` persists
the value `5`, so the recorded sequence numbers are `[5]`, not the
contiguous-from-1 sequence `[1]`: the State Manager does not assign
`sequenceNumber` when the caller already supplied one. -/
theorem seq_contiguity_counterexample :
    c3_state.log.map (fun r => r.sequenceNumber) = [5] ∧
    c3_state.log.map (fun r => r.sequenceNumber) ≠ [1] := by
  constructor
  · rfl
  · intro h
    rw [show c3_state.log.map (fun r => r.sequenceNumber) = [5] from rfl] at h
    simp at h

/-- The contiguity invariant carried through a batch of appends. -/
def SeqInv (s : SMState) : Prop :=
  read_last_sequence s = s.log.length ∧
  s.log.map (fun r => r.sequenceNumber) = List.range' 1 s.log.length

theorem range'_snoc (s n : Nat) : List.range' s (n + 1) = List.range' s n ++ [s + n] := by
  induction n generalizing s with
  | zero => simp [List.range']
  | succ n ih =>
    have h1 : s + 1 + n = s + (n + 1) := by omega
    rw [show List.range' s (n + 1 + 1) = s :: List.range' (s + 1) (n + 1) from rfl,
        ih (s + 1), h1,
        show List.range' s (n + 1) = s :: List.range' (s + 1) n from rfl]
    simp

theorem append_step_seqInv (x : InEvent × String × String) (s : SMState)
    (hs : SeqInv s) (hx : x.1.sequenceNumber = none) :
    SeqInv (match append_event x.2.1 x.2.2 s x.1 with
            | .ok (st', _) => st'
            | .error _ => s) := by
  obtain ⟨hseq, hmap⟩ := hs
  cases hk : x.1.idempotencyKey with
  | none =>
    simp only [append_event, hk]
    exact ⟨hseq, hmap⟩
  | some key =>
    cases hm : idxMem s.indexKeys key with
    | true =>
      simp only [append_event, hk, hm, if_true]
      exact ⟨hseq, hmap⟩
    | false =>
      simp only [append_event, hk, hm, Bool.false_eq_true, if_false]
      constructor
      · show read_last_sequence s + 1 = _
        simp [hseq]
      · simp only [List.map_append, List.map_cons, List.map_nil, List.length_append,
          List.length_cons, List.length_nil]
        rw [hmap, hx, Option.getD_none, hseq, Nat.add_zero, range'_snoc]
        congr 1
        simp [Nat.add_comm]

theorem appendMany_seqInv (xs : List (InEvent × String × String)) (s : SMState)
    (hs : SeqInv s) (h : ∀ x ∈ xs, x.1.sequenceNumber = none) :
    SeqInv (appendMany s xs) := by
  induction xs generalizing s with
  | nil => exact hs
  | cons x xs ih =>
    have hx : x.1.sequenceNumber = none := h x (List.mem_cons_self ..)
    have hxs : ∀ y ∈ xs, y.1.sequenceNumber = none := fun y hy => h y (List.mem_cons_of_mem _ hy)
    show SeqInv (appendMany _ xs)
    exact ih _ (append_step_seqInv x s ⟨hs.1, hs.2⟩ hx) hxs

/-- C3 (amended): for every sequence of `append_event` calls on a
fresh project in which no event presets its own `sequenceNumber`, the
sequence numbers recorded in the persisted events form the contiguous
strictly increasing sequence 1, 2, 3, …, assigned by the State Manager
at append time. -/
theorem append_seq_contiguous
    (xs : List (InEvent × String × String))
    (h : ∀ x ∈ xs, x.1.sequenceNumber = none) :
    (appendMany freshSM xs).log.map (fun r => r.sequenceNumber)
      = List.range' 1 (appendMany freshSM xs).log.length :=
  (appendMany_seqInv xs freshSM ⟨rfl, rfl⟩ h).2

/-- Concrete inputs for the C3 witness: three appends without preset
sequence numbers (the middle one a duplicate key that dedupes). -/
def c3_batch : List (InEvent × String × String) :=
  [({ type := "A", idempotencyKey := some "ka" }, "e-1", "t1"),
   ({ type := "B", idempotencyKey := some "ka" }, "e-2", "t2"),
   ({ type := "C", idempotencyKey := some "kc" }, "e-3", "t3")]

/-- Witness for the amended C3. -/
theorem append_seq_contiguous_witness :
    (appendMany freshSM c3_batch).log.map (fun r => r.sequenceNumber)
      = List.range' 1 (appendMany freshSM c3_batch).log.length :=
  append_seq_contiguous c3_batch (by decide)

/-! ### C6: at-most-once result notification -/

/-- The idempotency key written by `Orchestrator._notify_result`
(orchestrator.py line 948): `f"{project}:{taskId}:{lastRunId}:notified"`. -/
def notifKey (p t r : String) : String :=
  p ++ ":" ++ t ++ ":" ++ r ++ ":notified"

/-- Every key carried by a persisted record is present in the
idempotency index (true of every state `append_event` produces from a
fresh project, since the index is updated on each write). -/
def KeyConsistent (s : SMState) : Prop :=
  ∀ r ∈ s.log, idxMem s.indexKeys r.idempotencyKey = true

/-- No two persisted records share an idempotency key. -/
def LogKeysNodup (s : SMState) : Prop :=
  s.log.Pairwise (fun a b => a.idempotencyKey ≠ b.idempotencyKey)

theorem append_step_keys (x : InEvent × String × String) (s : SMState)
    (hc : KeyConsistent s) (hn : LogKeysNodup s) :
    KeyConsistent (match append_event x.2.1 x.2.2 s x.1 with
                   | .ok (st', _) => st'
                   | .error _ => s) ∧
    LogKeysNodup (match append_event x.2.1 x.2.2 s x.1 with
                  | .ok (st', _) => st'
                  | .error _ => s) := by
  cases hk : x.1.idempotencyKey with
  | none =>
    simp only [append_event, hk]
    exact ⟨hc, hn⟩
  | some key =>
    cases hm : idxMem s.indexKeys key with
    | true =>
      simp only [append_event, hk, hm, if_true]
      exact ⟨hc, hn⟩
    | false =>
      simp only [append_event, hk, hm, Bool.false_eq_true, if_false]
      have hfresh : ∀ r ∈ s.log, r.idempotencyKey ≠ key := by
        intro r hr heq
        have hmem := hc r hr
        rw [heq, hm] at hmem
        exact Bool.false_ne_true hmem
      constructor
      · intro r hr
        rcases List.mem_append.1 hr with hr | hr
        · exact idxMem_idxSet_of_mem _ _ _ _ (hc r hr)
        · simp only [List.mem_singleton] at hr
          subst hr
          exact idxMem_idxSet_self ..
      · show List.Pairwise _ (s.log ++ [_])
        rw [List.pairwise_append]
        refine ⟨hn, List.pairwise_singleton .., ?_⟩
        intro a ha b hb
        simp only [List.mem_singleton] at hb
        subst hb
        exact hfresh a ha

/-- The record-level consequence of the hypothesis on notification
inputs: every persisted `RESULT_NOTIFIED` record for `(t, r)` carries
the orchestrator's notification key. -/
def NotifKeyed (t r κ : String) (s : SMState) : Prop :=
  ∀ rec ∈ s.log, rec.type = "RESULT_NOTIFIED" → rec.taskId = some t →
    rec.runId = some r → rec.idempotencyKey = κ

theorem append_step_notifKeyed (t r κ : String) (x : InEvent × String × String) (s : SMState)
    (hs : NotifKeyed t r κ s)
    (hx : x.1.type = "RESULT_NOTIFIED" → x.1.taskId = some t → x.1.runId = some r →
          x.1.idempotencyKey = some κ) :
    NotifKeyed t r κ (match append_event x.2.1 x.2.2 s x.1 with
                      | .ok (st', _) => st'
                      | .error _ => s) := by
  cases hk : x.1.idempotencyKey with
  | none =>
    simp only [append_event, hk]
    exact hs
  | some key =>
    cases hm : idxMem s.indexKeys key with
    | true =>
      simp only [append_event, hk, hm, if_true]
      exact hs
    | false =>
      simp only [append_event, hk, hm, Bool.false_eq_true, if_false]
      intro rec hrec
      rcases List.mem_append.1 hrec with hr | hr
      · exact hs rec hr
      · simp only [List.mem_singleton] at hr
        subst hr
        intro hty hti hri
        have := hx hty hti hri
        rw [hk] at this
        exact Option.some_injective _ this

theorem appendMany_bundle (t r κ : String) (xs : List (InEvent × String × String)) (s : SMState)
    (hc : KeyConsistent s) (hn : LogKeysNodup s) (hkeyed : NotifKeyed t r κ s)
    (h : ∀ x ∈ xs, x.1.type = "RESULT_NOTIFIED" → x.1.taskId = some t → x.1.runId = some r →
         x.1.idempotencyKey = some κ) :
    KeyConsistent (appendMany s xs) ∧ LogKeysNodup (appendMany s xs) ∧
    NotifKeyed t r κ (appendMany s xs) := by
  induction xs generalizing s with
  | nil => exact ⟨hc, hn, hkeyed⟩
  | cons x xs ih =>
    have hx := h x (List.mem_cons_self ..)
    have hxs := fun y hy => h y (List.mem_cons_of_mem x hy)
    have hstep := append_step_keys x s hc hn
    have hstepk := append_step_notifKeyed t r κ x s hkeyed hx
    exact ih _ hstep.1 hstep.2 hstepk hxs

/-- A filtered sublist of a key-distinct log in which every element
carries the same key has at most one element. -/
theorem filter_same_key_le_one (l : List Rec) (κ : String) (p : Rec → Bool)
    (hnd : l.Pairwise (fun a b => a.idempotencyKey ≠ b.idempotencyKey))
    (hall : ∀ rec ∈ l, p rec = true → rec.idempotencyKey = κ) :
    (l.filter p).length ≤ 1 := by
  have hsub : (l.filter p).Pairwise (fun a b => a.idempotencyKey ≠ b.idempotencyKey) :=
    hnd.sublist (List.filter_sublist l)
  cases hfl : l.filter p with
  | nil => simp
  | cons a tl =>
    cases tl with
    | nil => simp
    | cons b tl' =>
      exfalso
      rw [hfl] at hsub
      have hab : a.idempotencyKey ≠ b.idempotencyKey :=
        (List.pairwise_cons.1 hsub).1 b (List.mem_cons_self ..)
      have ha : a ∈ l.filter p := by rw [hfl]; exact List.mem_cons_self ..
      have hb : b ∈ l.filter p := by
        rw [hfl]; exact List.mem_cons_of_mem _ (List.mem_cons_self ..)
      have hka := hall a (List.mem_of_mem_filter ha) (List.of_mem_filter ha)
      have hkb := hall b (List.mem_of_mem_filter hb) (List.of_mem_filter hb)
      exact hab (hka.trans hkb.symm)

/-- C6: for every `(taskId, runId)` pair, after any batch of appends in
which the orchestrator's result-notification step writes
`RESULT_NOTIFIED` events under the idempotency key
`project:taskId:runId:notified`, the persisted log of a fresh project
contains at most one `RESULT_NOTIFIED` record for that pair: the
idempotency key guarantees at-most-once notification per run. -/
theorem result_notified_at_most_once
    (xs : List (InEvent × String × String)) (p t r : String)
    (h : ∀ x ∈ xs, x.1.type = "RESULT_NOTIFIED" → x.1.taskId = some t → x.1.runId = some r →
         x.1.idempotencyKey = some (notifKey p t r)) :
    ((appendMany freshSM xs).log.filter
      (fun rec => rec.type == "RESULT_NOTIFIED" && rec.taskId == some t
        && rec.runId == some r)).length ≤ 1 := by
  obtain ⟨hc, hn, hkeyed⟩ := appendMany_bundle t r (notifKey p t r) xs freshSM
    (by intro rec hrec; simp [freshSM] at hrec)
    (by simp [freshSM, LogKeysNodup])
    (by intro rec hrec; simp [freshSM] at hrec)
    h
  apply filter_same_key_le_one _ _ _ hn
  intro rec hrec hp
  simp only [Bool.and_eq_true, beq_iff_eq] at hp
  exact hkeyed rec hrec hp.1.1 hp.1.2 hp.2

/-- Concrete inputs for the C6 witness: two ticks both attempting to
notify the result of `(T1, r-1)`. -/
def c6_batch : List (InEvent × String × String) :=
  [({ type := "RESULT_NOTIFIED", taskId := some "T1", runId := some "r-1",
      idempotencyKey := some (notifKey "proj" "T1" "r-1") }, "e-1", "t1"),
   ({ type := "RESULT_NOTIFIED", taskId := some "T1", runId := some "r-1",
      idempotencyKey := some (notifKey "proj" "T1" "r-1") }, "e-2", "t2")]

/-- Witness for C6. -/
theorem result_notified_at_most_once_witness :
    ((appendMany freshSM c6_batch).log.filter
      (fun rec => rec.type == "RESULT_NOTIFIED" && rec.taskId == some "T1"
        && rec.runId == some "r-1")).length ≤ 1 :=
  result_notified_at_most_once c6_batch "proj" "T1" "r-1" (by decide)

end SM

/-! ## Reducer (`tiangong/core/reducer.py`)

`reduce_events` is modelled over the list of decoded events (the
output of `read_events` minus corrupted lines, which are excluded from
the fold).  Python sets are modelled as deduplicating lists (the
output sorts gates, so ordering is immaterial); Python dicts preserve
insertion order, modelled as association lists with in-place update.
`status["updatedAt"]`, which the source fills from the wall clock, is
not part of the modelled status (the spec exposes the clock as a
capability).  Events whose `payload.tasks` is a truthy non-array or
whose spec `taskId` is a truthy non-string would raise inside the
source's iteration and are outside the modelled event space. -/

namespace Red

/-- An event as the reducer reads it from a decoded log line.  `""`
models an absent `type` (both match no branch). -/
structure REvent where
  type : String := ""
  eventId : Option String := none
  sequenceNumber : Option Nat := none
  idempotencyKey : Option String := none
  project : Option String := none
  taskId : Option String := none
  runId : Option String := none
  at_ : Option String := none
  payload : Json := Json.obj []
deriving Repr, DecidableEq

/-- Python truthiness of an optional string (`if not task_id`). -/
def truthyS : Option String → Bool
  | some s => s != ""
  | none => false

/-- Python truthiness of an optional JSON value. -/
def truthyO : Option Json → Bool
  | some v => truthy v
  | none => false

/-- `a or b` on optional JSON values. -/
def pyOr (a b : Option Json) : Option Json :=
  if truthyO a then a else b

/-- `payload.get(k)` on a JSON value (non-dict payloads yield nothing). -/
def pget (p : Json) (k : String) : Option Json :=
  match p with
  | .obj kvs => lookupKey kvs k
  | _ => none

/-- Generic insertion-ordered dict lookup. -/
def alistGet {α : Type} (l : List (String × α)) (k : String) : Option α :=
  match l with
  | [] => none
  | (k', v) :: rest => if k' = k then some v else alistGet rest k

/-- Generic insertion-ordered dict assignment: update in place,
append if new. -/
def alistPut {α : Type} (l : List (String × α)) (k : String) (v : α) : List (String × α) :=
  match l with
  | [] => [(k, v)]
  | (k', v') :: rest => if k' = k then (k, v) :: rest else (k', v') :: alistPut rest k v

/-- `{k: v, **d}`: key `k` first, holding `d`'s value when `d` already
has it, followed by the remaining entries of `d`. -/
def dictDefault (k : String) (v : Json) (d : List (String × Json)) : List (String × Json) :=
  (k, (lookupKey d k).getD v) :: d.filter (fun kv => kv.1 ≠ k)

/-- `apply_gate` (reducer.py lines 86–90); gate sets are deduplicating
lists here, sorted at output time. -/
def apply_gate (gates : List String) (g : String) (add : Bool) : List String :=
  if add then (if g ∈ gates then gates else gates ++ [g])
  else gates.filter (fun x => x ≠ g)

/-- `RunStatus` (reducer.py lines 15–21). -/
structure RunStatus where
  started : Bool := false
  completed : Bool := false
  verdict : Option Json := none
  aborted : Bool := false
  failed : Bool := false
deriving Repr, DecidableEq

/-- `TaskState` (reducer.py lines 24–36); `skillDecision = none`
models the initial empty dict. -/
structure RTask where
  taskId : String
  state : String := "pending"
  gates : List String := []
  runId : Option String := none
  runStatus : RunStatus := {}
  skillDecision : Option (Option Json × Option Json) := none
  policyTier : Option Json := none
  lastEvidence : Json := Json.obj []
  lastVerdict : Json := Json.obj []
  result : List (String × Json) := []
  taskSpec : Json := Json.obj []
deriving Repr, DecidableEq

/-- A `risks[]` entry: `{"type": etype, "eventId": ..., "payload": ...}`. -/
structure Risk where
  rtype : String
  eventId : Option String
  payload : Json
deriving Repr, DecidableEq

/-- An `alerts[]` entry pushed by the fold or the locks derivation. -/
inductive Alert where
  | blocked (taskId : String) (runId : Option String)
  | multipleOpenRuns (taskId : String) (runIds : List (Option String))
deriving Repr, DecidableEq

/-- The fold state other than the `project_name` local and the
`seen_keys` set: the status fields, the task dict, the open-run dict
and the project-lock flag. -/
structure RCore where
  phase : String := "running"
  halted : Bool := false
  mode : String := "normal"
  degradedReason : Option String := none
  watchdogLastHeartbeatAt : Option String := none
  watchdogState : String := "healthy"
  risks : List Risk := []
  alerts : List Alert := []
  tasks : List (String × RTask) := []
  openRuns : List (String × List (Option String)) := []
  locksProjectRunning : Bool := false
deriving Repr, DecidableEq

/-- The full fold state: `core`, the `project_name` local (folded with
`status["project"]["name"]`, which it overwrites on every event) and
the `seen_keys` dedup set. -/
structure RState where
  core : RCore := {}
  name : String := "unknown"
  seenKeys : List String := []
deriving Repr, DecidableEq

/-- `recompute_state` (reducer.py lines 93–108): priority
blocked > canceled > done. -/
def recompute_state (t : RTask) : RTask :=
  if t.runStatus.verdict == some (Json.str "BLOCK") || t.runStatus.failed then
    { t with state := "blocked", gates := [] }
  else if t.runStatus.aborted then
    { t with state := "canceled", gates := [] }
  else if t.runStatus.completed && (t.runStatus.verdict == some (Json.str "PASS")) then
    { t with
      state := "done"
      result := dictDefault "quality" (Json.str "clean") t.result
      gates := [] }
  else t

/-- The run-bound event types (reducer.py lines 217–225). -/
def run_bound_types : List String :=
  ["WORKER_RUN_STARTED", "WORKER_RUN_COMPLETED", "WORKER_RUN_FAILED", "WORKER_RUN_ABORTED",
   "EVIDENCE_SUBMITTED", "WATCHDOG_VERDICT", "HUMAN_VERDICT"]

/-- `get_task` (reducer.py lines 152–154): create the task entry on
first access, preserving dict insertion order. -/
def ensureTask (tasks : List (String × RTask)) (tid : String) : List (String × RTask) :=
  match alistGet tasks tid with
  | some _ => tasks
  | none => tasks ++ [(tid, { taskId := tid })]

/-- `open_runs.setdefault(task_id, []).append(run_id)`. -/
def openRunsAdd (orns : List (String × List (Option String))) (tid : String)
    (rid : Option String) : List (String × List (Option String)) :=
  match alistGet orns tid with
  | some l => alistPut orns tid (l ++ [rid])
  | none => orns ++ [(tid, [rid])]

/-- The `RUN_CLOSED` branch (reducer.py lines 305–310): remove the run
from the task's open list, dropping the key when it empties. -/
def openRunsClose (orns : List (String × List (Option String))) (tid : String)
    (rid : Option String) : List (String × List (Option String)) :=
  match alistGet orns tid with
  | some l =>
    if rid ∈ l then
      (if (l.filter (fun x => x ≠ rid)).isEmpty then orns.filter (fun kv => kv.1 ≠ tid)
       else alistPut orns tid (l.filter (fun x => x ≠ rid)))
    else orns
  | none => orns

/-- The project-phase `if/elif` chain (reducer.py lines 174–201). -/
def projectChain (etype : String) (c : RCore) : RCore :=
  match etype with
  | "TEAM_CREATED" => c
  | "PROJECT_STARTED" => { c with locksProjectRunning := true, phase := "running" }
  | "PROJECT_FINISHED" => { c with locksProjectRunning := false, phase := "finished", halted := false }
  | "PROJECT_HALTED" => { c with halted := true, phase := "halted", locksProjectRunning := false }
  | "PROJECT_RESUMED" => { c with halted := false, phase := "running", locksProjectRunning := true }
  | "PROJECT_MODE_RESTORED" => { c with mode := "normal", degradedReason := none }
  | "WATCHDOG_UNRESPONSIVE" => { c with mode := "degraded", degradedReason := some "watchdog_unresponsive" }
  | "VERDICT_TIMEOUT" => { c with mode := "degraded", degradedReason := some "verdict_timeout" }
  | "RECOVERY_STARTED" => { c with mode := "degraded", degradedReason := some "recovery_in_progress" }
  | _ => c

/-- The watchdog `if/elif` chain (reducer.py lines 203–207). -/
def watchdogChain (etype : String) (evAt : Option String) (c : RCore) : RCore :=
  match etype with
  | "WATCHDOG_HEARTBEAT" => { c with watchdogLastHeartbeatAt := evAt, watchdogState := "healthy" }
  | "WATCHDOG_UNRESPONSIVE" => { c with watchdogState := "unresponsive" }
  | _ => c

/-- The telemetry `risks[]` push (reducer.py lines 210–211). -/
def telemetryChain (etype : String) (evId : Option String) (pl : Json) (c : RCore) : RCore :=
  if etype = "MESSAGE_IGNORED" ∨ etype = "WATCHDOG_UNRESPONSIVE" ∨ etype = "VERDICT_TIMEOUT"
      ∨ etype = "LOCK_TIMEOUT_DETECTED" ∨ etype = "CORRUPTED_LINE_DETECTED" then
    { c with risks := c.risks ++ [⟨etype, evId, pl⟩] }
  else c

/-- `taskId` of one spec inside a `TASKSPEC_PUBLISHED` batch:
`spec.get("taskId") or task_id`. -/
def specTid (spec : Json) (tid : String) : String :=
  match pget spec "taskId" with
  | some (Json.str s) => if s = "" then tid else s
  | _ => tid

/-- Apply one spec of a `TASKSPEC_PUBLISHED` batch (reducer.py lines
231–236). -/
def applySpec (tid : String) (tasks : List (String × RTask)) (spec : Json) :
    List (String × RTask) :=
  let tid' := specTid spec tid
  let ts := ensureTask tasks tid'
  let t := (alistGet ts tid').getD { taskId := tid' }
  alistPut ts tid'
    { t with
      state := "pending"
      gates := apply_gate t.gates "awaiting_skill_decision" true
      taskSpec := spec }

/-- The task-scoped event dispatch (reducer.py lines 228–310), reached
with a truthy `taskId` after the cross-run guard. -/
def taskDispatch (e : REvent) (pl : Json) (tid : String) (task : RTask) (c : RCore) : RCore :=
  match e.type with
  | "TASKSPEC_PUBLISHED" =>
    (match pget pl "tasks" with
     | some (Json.arr (s0 :: ss)) =>
       { c with tasks := (s0 :: ss).foldl (applySpec tid) c.tasks }
     | _ =>
       let t1 : RTask :=
         { task with
           state := "pending"
           gates := apply_gate task.gates "awaiting_skill_decision" true
           taskSpec := pl }
       { c with tasks := alistPut c.tasks tid t1 })
  | "TASK_SKILL_SET" =>
    let t1 : RTask :=
      { task with
        gates := apply_gate task.gates "awaiting_skill_decision" false
        skillDecision := some (pget pl "chosenSkill", pget pl "decisionSeq") }
    { c with tasks := alistPut c.tasks tid t1 }
  | "POLICY_TIER_REQUESTED" =>
    let t1 : RTask := { task with gates := apply_gate task.gates "awaiting_policy_approval" true }
    { c with tasks := alistPut c.tasks tid t1 }
  | "POLICY_TIER_APPROVED" =>
    let t1 : RTask :=
      { task with
        gates := apply_gate task.gates "awaiting_policy_approval" false
        policyTier := pget pl "tier" }
    { c with tasks := alistPut c.tasks tid t1 }
  | "VERDICT_TIMEOUT" =>
    let t1 : RTask := { task with gates := apply_gate task.gates "needs_human_review" true }
    { c with tasks := alistPut c.tasks tid t1 }
  | "WORKER_RUN_INTENT" =>
    let t1 : RTask :=
      if task.runId ≠ e.runId then
        { task with
          runStatus := {}
          lastEvidence := Json.obj []
          lastVerdict := Json.obj []
          result := [] }
      else task
    let t2 : RTask := { t1 with state := "assigned", runId := e.runId }
    { c with
      tasks := alistPut c.tasks tid t2
      openRuns := openRunsAdd c.openRuns tid e.runId }
  | "WORKER_RUN_STARTED" =>
    let t1 : RTask :=
      { task with
        state := "running"
        runId := e.runId
        runStatus := { task.runStatus with started := true } }
    { c with tasks := alistPut c.tasks tid t1 }
  | "WORKER_RUN_COMPLETED" =>
    let t1 : RTask :=
      { task with
        runId := e.runId
        runStatus := { task.runStatus with completed := true } }
    { c with tasks := alistPut c.tasks tid (recompute_state t1) }
  | "WORKER_RUN_FAILED" =>
    let reason := pyOr (pyOr (pget pl "reason") (pget pl "error")) (pget pl "message")
    let t1 : RTask :=
      { task with
        runId := e.runId
        runStatus := { task.runStatus with failed := true } }
    let t2 : RTask :=
      if truthyO reason then
        { t1 with result := dictDefault "failureReason" (reason.getD Json.null) t1.result }
      else t1
    { c with tasks := alistPut c.tasks tid (recompute_state t2) }
  | "WORKER_RUN_ABORTED" =>
    let t1 : RTask :=
      { task with
        runId := e.runId
        runStatus := { task.runStatus with aborted := true } }
    { c with tasks := alistPut c.tasks tid (recompute_state t1) }
  | "EVIDENCE_SUBMITTED" =>
    let t1 : RTask :=
      { task with
        gates := apply_gate task.gates "awaiting_verdict" true
        lastEvidence := pl }
    { c with tasks := alistPut c.tasks tid t1 }
  | "WATCHDOG_VERDICT" =>
    let v := pget pl "verdict"
    let t1 : RTask :=
      { task with
        runStatus := { task.runStatus with verdict := v }
        lastVerdict := pl
        gates := apply_gate task.gates "awaiting_verdict" false }
    if v == some (Json.str "WARN") then
      let t2 : RTask := { t1 with gates := apply_gate t1.gates "needs_human_review" true }
      { c with tasks := alistPut c.tasks tid (recompute_state t2) }
    else if v == some (Json.str "BLOCK") then
      let t2 : RTask := { t1 with state := "blocked", gates := [] }
      { c with
        tasks := alistPut c.tasks tid (recompute_state t2)
        alerts := c.alerts ++ [Alert.blocked tid e.runId] }
    else
      { c with tasks := alistPut c.tasks tid (recompute_state t1) }
  | "HUMAN_VERDICT" =>
    let v := pget pl "verdict"
    let t1 : RTask :=
      { task with
        runStatus := { task.runStatus with verdict := v }
        lastVerdict := pl }
    if v == some (Json.str "PASS") then
      let t2 : RTask :=
        { t1 with
          gates := apply_gate t1.gates "needs_human_review" false
          result := dictDefault "quality" (Json.str "warn_override") t1.result }
      { c with tasks := alistPut c.tasks tid (recompute_state t2) }
    else if v == some (Json.str "BLOCK") then
      let t2 : RTask := { t1 with state := "blocked", gates := [] }
      { c with tasks := alistPut c.tasks tid (recompute_state t2) }
    else
      { c with tasks := alistPut c.tasks tid (recompute_state t1) }
  | "RUN_CLOSED" =>
    { c with openRuns := openRunsClose c.openRuns tid e.runId }
  | _ => c

/-- The task-scoped part of one fold iteration: ensure the task entry,
apply the cross-run guard (reducer.py line 226), then dispatch. -/
def taskLevel (e : REvent) (pl : Json) (tid : String) (c : RCore) : RCore :=
  let tasks := ensureTask c.tasks tid
  let task := (alistGet tasks tid).getD { taskId := tid }
  let c1 := { c with tasks := tasks }
  if e.type ∈ run_bound_types ∧ truthyS task.runId = true ∧ truthyS e.runId = true
      ∧ e.runId ≠ task.runId then c1
  else taskDispatch e pl tid task c1

/-- One fold iteration on everything except the `project_name` local
and the `seen_keys` set (reducer.py lines 166–310). -/
def stepCore (e : REvent) (c : RCore) : RCore :=
  let pl := if truthy e.payload then e.payload else Json.obj []
  let c1 := telemetryChain e.type e.eventId pl
    (watchdogChain e.type e.at_ (projectChain e.type c))
  match e.taskId with
  | none => c1
  | some tid => if tid = "" then c1 else taskLevel e pl tid c1

/-- `project_name = event.get("project") or project_name or "unknown"`;
the local always holds a truthy value or the initial status name. -/
def stepName (e : REvent) (name : String) : String :=
  match e.project with
  | some p => if p = "" then name else p
  | none => name

/-- One full fold iteration including deduplication by
`idempotencyKey` (reducer.py lines 159–164). -/
def step (s : RState) (e : REvent) : RState :=
  match e.idempotencyKey with
  | some k =>
    if k = "" then
      { core := stepCore e s.core, name := stepName e s.name, seenKeys := s.seenKeys }
    else if s.seenKeys.contains k then s
    else { core := stepCore e s.core, name := stepName e s.name, seenKeys := k :: s.seenKeys }
  | none =>
    { core := stepCore e s.core, name := stepName e s.name, seenKeys := s.seenKeys }

/-- The sort key `(int(e.get("sequenceNumber", 0)), e.get("eventId", ""))`. -/
def sortKey (e : REvent) : Nat × String :=
  (e.sequenceNumber.getD 0, e.eventId.getD "")

/-- The sort order of reducer.py line 144 (lexicographic on the key). -/
def evLE (a b : REvent) : Prop :=
  toLex (sortKey a) ≤ toLex (sortKey b)

instance : DecidableRel evLE := fun a b => by
  unfold evLE
  infer_instance

instance : IsTotal REvent evLE :=
  ⟨fun a b => le_total (toLex (sortKey a)) (toLex (sortKey b))⟩

instance : IsTrans REvent evLE :=
  ⟨fun _ _ _ h1 h2 => le_trans h1 h2⟩

/-- `events.sort(key=...)`: Python's sort is stable, as is insertion
sort, and stable sorts of the same list coincide. -/
def sortEvents (events : List REvent) : List REvent :=
  List.insertionSort evLE events

/-- The fold over an already sorted stream, from the initial status. -/
def foldEvents (events : List REvent) : RState :=
  events.foldl step {}

/-- Post-fold degraded propagation (reducer.py lines 312–317). -/
def propagateDegraded (c : RCore) : RCore :=
  if c.degradedReason = some "watchdog_unresponsive" then
    { c with tasks := c.tasks.map (fun kv =>
        let t := kv.2
        if t.state = "done" ∨ t.state = "blocked" ∨ t.state = "canceled" then kv
        else if "awaiting_verdict" ∈ t.gates then
          (kv.1, { t with gates := apply_gate t.gates "needs_human_review" true })
        else kv) }
  else c

/-- Locks derivation over the open-runs dict (reducer.py lines
322–330): a single open run locks the task; several mark the project
degraded with an alert. -/
def locksFold (c : RCore) : List (String × Option String) × RCore :=
  c.openRuns.foldl
    (fun acc kv =>
      match kv.2 with
      | [rid] => (acc.1 ++ [(kv.1, rid)], acc.2)
      | rids =>
        (acc.1,
         { acc.2 with
           mode := "degraded"
           degradedReason := some "multiple_open_runs"
           alerts := acc.2.alerts ++ [Alert.multipleOpenRuns kv.1 rids] }))
    ([], c)

/-- One entry of the published `tasks[]` list: the compact summary for
done tasks or the full state otherwise (reducer.py lines 336–360). -/
inductive TaskOut where
  | done (taskId : String) (resultSummary : Option Json) (evidencePath : Option Json)
      (lastRunId : Option String) (taskSpec : Option Json)
  | other (taskId : String) (state : String) (gates : List String) (runId : Option String)
      (skillDecision : Option (Option Json × Option Json)) (policyTier : Option Json)
      (lastEvidence : Json) (lastVerdict : Json) (result : List (String × Json))
      (taskSpec : Option Json)
deriving Repr, DecidableEq

/-- Split the task dict into output entries and count done/blocked. -/
def assembleTasks (tasks : List (String × RTask)) : List TaskOut × Nat × Nat :=
  tasks.foldl
    (fun acc kv =>
      let t := kv.2
      if t.state = "done" then
        (acc.1 ++ [TaskOut.done t.taskId (lookupKey t.result "summary")
            (pget t.lastEvidence "evidencePath") t.runId
            (if truthy t.taskSpec then some t.taskSpec else none)],
         acc.2.1 + 1, acc.2.2)
      else
        (acc.1 ++ [TaskOut.other t.taskId t.state
            (List.insertionSort (fun a b => a ≤ b) t.gates) t.runId t.skillDecision
            t.policyTier t.lastEvidence t.lastVerdict t.result
            (if truthy t.taskSpec then some t.taskSpec else none)],
         acc.2.1, acc.2.2 + (if t.state = "blocked" then 1 else 0)))
    ([], 0, 0)

/-- `progress {total, done, blocked}`. -/
structure Progress where
  total : Nat
  done : Nat
  blocked : Nat
deriving Repr, DecidableEq

/-- The published Status snapshot (minus `updatedAt`, which the source
fills from the wall clock). -/
structure RStatus where
  name : String
  phase : String
  halted : Bool
  mode : String
  degradedReason : Option String
  progress : Progress
  watchdogLastHeartbeatAt : Option String
  watchdogState : String
  tasks : List TaskOut
  risks : List Risk
  alerts : List Alert
  locksProject : String
  locksTasks : List (String × Option String)
deriving Repr, DecidableEq

/-- `reduce_events` (reducer.py lines 136–394) over the decoded event
list: sort by `(sequenceNumber, eventId)`, fold with idempotency-key
deduplication, propagate degraded mode, derive locks, assemble the
tasks list and progress counters. -/
def reduce_events (events : List REvent) : RStatus :=
  let s := foldEvents (sortEvents events)
  let c0 := propagateDegraded s.core
  let locksProject := if c0.locksProjectRunning && !c0.halted then "running" else "idle"
  let lf := locksFold c0
  let at' := assembleTasks lf.2.tasks
  { name := s.name
    phase := lf.2.phase
    halted := lf.2.halted
    mode := lf.2.mode
    degradedReason := lf.2.degradedReason
    progress := ⟨at'.1.length, at'.2.1, at'.2.2⟩
    watchdogLastHeartbeatAt := lf.2.watchdogLastHeartbeatAt
    watchdogState := lf.2.watchdogState
    tasks := at'.1
    risks := lf.2.risks
    alerts := lf.2.alerts
    locksProject := locksProject
    locksTasks := lf.1 }

/-! ### C8: determinism of the reducer -/

/-- Strict order on the sort keys. -/
def evLT (a b : REvent) : Prop :=
  toLex (sortKey a) < toLex (sortKey b)

instance : IsAntisymm REvent evLT :=
  ⟨fun _ _ h1 h2 => absurd (lt_trans h1 h2) (lt_irrefl _)⟩

theorem sortEvents_eq_of_perm (E1 E2 : List REvent)
    (hperm : E1.Perm E2) (hkeys : (E1.map sortKey).Nodup) :
    sortEvents E1 = sortEvents E2 := by
  have hs1 : List.Sorted evLE (sortEvents E1) := List.sorted_insertionSort evLE E1
  have hs2 : List.Sorted evLE (sortEvents E2) := List.sorted_insertionSort evLE E2
  have hp : (sortEvents E1).Perm (sortEvents E2) :=
    (List.perm_insertionSort evLE E1).trans (hperm.trans (List.perm_insertionSort evLE E2).symm)
  have hnd1 : ((sortEvents E1).map sortKey).Nodup :=
    (((List.perm_insertionSort evLE E1).map sortKey).nodup_iff).2 hkeys
  have hnd2 : ((sortEvents E2).map sortKey).Nodup :=
    ((hp.map sortKey).nodup_iff).1 hnd1
  have hpw1 : (sortEvents E1).Pairwise (fun a b => sortKey a ≠ sortKey b) := by
    rw [List.Nodup, List.pairwise_map] at hnd1
    exact hnd1
  have hpw2 : (sortEvents E2).Pairwise (fun a b => sortKey a ≠ sortKey b) := by
    rw [List.Nodup, List.pairwise_map] at hnd2
    exact hnd2
  have hstrict1 : (sortEvents E1).Pairwise evLT :=
    (hs1.and hpw1).imp (fun h =>
      lt_of_le_of_ne h.1 (fun hEq => h.2 (toLex.injective hEq)))
  have hstrict2 : (sortEvents E2).Pairwise evLT :=
    (hs2.and hpw2).imp (fun h =>
      lt_of_le_of_ne h.1 (fun hEq => h.2 (toLex.injective hEq)))
  exact List.eq_of_perm_of_sorted hp hstrict1 hstrict2

/-- C8: the reducer is deterministic.  It is a pure function of the
event list, and for any two orderings of the same events whose
`(sequenceNumber, eventId)` sort keys are pairwise distinct (the data
model makes `eventId` unique), the stable sort normalizes both to the
same stream, so `reduce_events` produces identical Status outputs. -/
theorem reduce_events_deterministic (E1 E2 : List REvent)
    (hperm : E1.Perm E2) (hkeys : (E1.map sortKey).Nodup) :
    reduce_events E1 = reduce_events E2 := by
  unfold reduce_events foldEvents
  rw [sortEvents_eq_of_perm E1 E2 hperm hkeys]

/-- C8 witness events: distinct sort keys, presented in two orders. -/
def c8_ev1 : REvent :=
  { type := "PROJECT_STARTED", sequenceNumber := some 1, eventId := some "e1",
    idempotencyKey := some "k1", project := some "demo" }

def c8_ev2 : REvent :=
  { type := "WATCHDOG_HEARTBEAT", sequenceNumber := some 2, eventId := some "e2",
    idempotencyKey := some "k2", project := some "demo", at_ := some "2026-01-01T00:00:00.000000Z" }

/-- Witness for C8. -/
theorem reduce_events_deterministic_witness :
    reduce_events [c8_ev1, c8_ev2] = reduce_events [c8_ev2, c8_ev1] :=
  reduce_events_deterministic [c8_ev1, c8_ev2] [c8_ev2, c8_ev1]
    (List.Perm.swap c8_ev2 c8_ev1 []) (by decide)

/-! ### C9: cross-run events are ignored -/

theorem chains_id_of_run_bound (ty : String) (hty : ty ∈ run_bound_types)
    (eid : Option String) (a0 : Option String) (pl : Json) (c : RCore) :
    telemetryChain ty eid pl (watchdogChain ty a0 (projectChain ty c)) = c := by
  simp only [run_bound_types, List.mem_cons, List.not_mem_nil, or_false] at hty
  rcases hty with h | h | h | h | h | h | h <;> subst h <;> rfl

theorem ensureTask_of_mem (tasks : List (String × RTask)) (tid : String) (task : RTask)
    (hget : alistGet tasks tid = some task) : ensureTask tasks tid = tasks := by
  unfold ensureTask
  rw [hget]

/-- The cross-run guard (reducer.py line 226): a run-bound event whose
`runId` differs from the task's bound run leaves the whole fold core
unchanged (the task entry already exists, so `get_task` adds
nothing). -/
theorem stepCore_ignored (e : REvent) (c : RCore) (tid : String) (task : RTask)
    (hty : e.type ∈ run_bound_types)
    (htid : e.taskId = some tid) (htid' : tid ≠ "")
    (hget : alistGet c.tasks tid = some task)
    (hbound : truthyS task.runId = true)
    (hrun : truthyS e.runId = true)
    (hne : e.runId ≠ task.runId) :
    stepCore e c = c := by
  unfold stepCore
  dsimp only
  rw [htid, chains_id_of_run_bound e.type hty]
  simp only [if_neg htid']
  unfold taskLevel
  dsimp only
  rw [ensureTask_of_mem c.tasks tid task hget, hget]
  simp only [Option.getD_some]
  rw [if_pos ⟨hty, hbound, hrun, hne⟩]

/-- The relation preserved while folding the tail: equal cores, names
free, and seen-key sets equal up to the ignored event's key. -/
def Agree (extra : List String) (s1 s2 : RState) : Prop :=
  s1.core = s2.core ∧ ∀ x : String, x ∈ s1.seenKeys ↔ (x ∈ s2.seenKeys ∨ x ∈ extra)

theorem step_agree (extra : List String) (e : REvent) (s1 s2 : RState)
    (hA : Agree extra s1 s2)
    (he : ∀ κ, e.idempotencyKey = some κ → κ ≠ "" → κ ∉ extra) :
    Agree extra (step s1 e) (step s2 e) := by
  obtain ⟨hcore, hseen⟩ := hA
  cases hk : e.idempotencyKey with
  | none =>
    simp only [step, hk]
    exact ⟨by rw [hcore], hseen⟩
  | some k =>
    by_cases hke : k = ""
    · subst hke
      have h1 : step s1 e
          = { core := stepCore e s1.core, name := stepName e s1.name,
              seenKeys := s1.seenKeys } := by
        simp [step, hk]
      have h2 : step s2 e
          = { core := stepCore e s2.core, name := stepName e s2.name,
              seenKeys := s2.seenKeys } := by
        simp [step, hk]
      rw [h1, h2]
      exact ⟨by rw [hcore], hseen⟩
    · have hnotex : k ∉ extra := he k hk hke
      have hmem : s1.seenKeys.contains k = s2.seenKeys.contains k := by
        by_cases h2 : k ∈ s2.seenKeys
        · have h1 : k ∈ s1.seenKeys := (hseen k).2 (Or.inl h2)
          have c1 : s1.seenKeys.contains k = true := List.elem_eq_true_of_mem h1
          have c2 : s2.seenKeys.contains k = true := List.elem_eq_true_of_mem h2
          rw [c1, c2]
        · have h1 : k ∉ s1.seenKeys := fun h1 =>
            ((hseen k).1 h1).elim h2 hnotex
          have c1 : s1.seenKeys.contains k = false := by
            cases hc : s1.seenKeys.contains k with
            | false => rfl
            | true => exact absurd (List.elem_iff.1 hc) h1
          have c2 : s2.seenKeys.contains k = false := by
            cases hc : s2.seenKeys.contains k with
            | false => rfl
            | true => exact absurd (List.elem_iff.1 hc) h2
          rw [c1, c2]
      cases hc2 : s2.seenKeys.contains k with
      | true =>
        rw [hc2] at hmem
        simp only [step, hk, if_neg hke, hmem, hc2, if_true]
        exact ⟨hcore, hseen⟩
      | false =>
        rw [hc2] at hmem
        simp only [step, hk, if_neg hke, hmem, hc2, Bool.false_eq_true, if_false]
        refine ⟨by rw [hcore], fun x => ?_⟩
        simp only [List.mem_cons]
        constructor
        · rintro (h | h)
          · exact Or.inl (Or.inl h)
          · rcases (hseen x).1 h with h' | h'
            · exact Or.inl (Or.inr h')
            · exact Or.inr h'
        · rintro (h | h)
          · rcases h with h | h
            · exact Or.inl h
            · exact Or.inr ((hseen x).2 (Or.inl h))
          · exact Or.inr ((hseen x).2 (Or.inr h))

theorem foldl_agree (extra : List String) (post : List REvent) (s1 s2 : RState)
    (hA : Agree extra s1 s2)
    (hpost : ∀ e' ∈ post, ∀ κ, e'.idempotencyKey = some κ → κ ≠ "" → κ ∉ extra) :
    Agree extra (post.foldl step s1) (post.foldl step s2) := by
  induction post generalizing s1 s2 with
  | nil => exact hA
  | cons e' post ih =>
    exact ih (step s1 e') (step s2 e')
      (step_agree extra e' s1 s2 hA (hpost e' (List.mem_cons_self ..)))
      (fun y hy => hpost y (List.mem_cons_of_mem e' hy))

/-- C9: a run-bound event (`WORKER_RUN_STARTED/COMPLETED/FAILED/ABORTED`,
`EVIDENCE_SUBMITTED`, `WATCHDOG_VERDICT`, `HUMAN_VERDICT`) arriving in
the fold while its task already has a different truthy `runId` bound is
ignored: the task map after the fold — states, gates, run status, last
evidence, last verdict, results — is exactly what it would be were the
event absent from the stream.  (The event's idempotency key, when
truthy and fresh, must not be reused by a later event: the data model
makes idempotency keys injective.) -/
theorem run_bound_cross_run_ignored
    (pre post : List REvent) (ev : REvent) (tid : String) (task : RTask)
    (hty : ev.type ∈ run_bound_types)
    (htid : ev.taskId = some tid) (htid' : tid ≠ "")
    (hget : alistGet (List.foldl step {} pre).core.tasks tid = some task)
    (hbound : truthyS task.runId = true)
    (hrun : truthyS ev.runId = true)
    (hne : ev.runId ≠ task.runId)
    (hkey : ∀ κ, ev.idempotencyKey = some κ → κ ≠ "" →
      (List.foldl step {} pre).seenKeys.contains κ = true ∨
      ∀ e' ∈ post, e'.idempotencyKey ≠ some κ) :
    (List.foldl step {} (pre ++ ev :: post)).core.tasks
      = (List.foldl step {} (pre ++ post)).core.tasks := by
  rw [List.foldl_append, List.foldl_cons, List.foldl_append]
  have hcore : stepCore ev (List.foldl step {} pre).core = (List.foldl step {} pre).core :=
    stepCore_ignored ev _ tid task hty htid htid' hget hbound hrun hne
  cases hk : ev.idempotencyKey with
  | none =>
    have hA : Agree [] (step (List.foldl step {} pre) ev) (List.foldl step {} pre) := by
      simp only [step, hk]
      exact ⟨hcore, fun x => by simp⟩
    exact (foldl_agree [] post _ _ hA (fun e' _ κ _ _ => List.not_mem_nil κ)).1 ▸ rfl
  | some k =>
    by_cases hke : k = ""
    · subst hke
      have hA : Agree [] (step (List.foldl step {} pre) ev) (List.foldl step {} pre) := by
        simp only [step, hk, if_pos rfl]
        exact ⟨hcore, fun x => by simp⟩
      exact (foldl_agree [] post _ _ hA (fun e' _ κ _ _ => List.not_mem_nil κ)).1 ▸ rfl
    · cases hc : (List.foldl step {} pre).seenKeys.contains k with
      | true =>
        have : step (List.foldl step {} pre) ev = List.foldl step {} pre := by
          simp only [step, hk, if_neg hke, hc, if_true]
        rw [this]
      | false =>
        have hfresh : ∀ e' ∈ post, e'.idempotencyKey ≠ some k := by
          rcases hkey k hk hke with h | h
          · rw [hc] at h
            exact absurd h Bool.false_ne_true
          · exact h
        have hA : Agree [k] (step (List.foldl step {} pre) ev) (List.foldl step {} pre) := by
          simp only [step, hk, if_neg hke, hc, Bool.false_eq_true, if_false]
          refine ⟨hcore, fun x => ?_⟩
          simp only [List.mem_cons, List.mem_singleton, List.not_mem_nil]
          tauto
        have hpost : ∀ e' ∈ post, ∀ κ, e'.idempotencyKey = some κ → κ ≠ "" → κ ∉ [k] := by
          intro e' he' κ hκ _ hmem
          simp only [List.mem_singleton] at hmem
          subst hmem
          exact hfresh e' he' hκ
        exact (foldl_agree [k] post _ _ hA hpost).1 ▸ rfl

/-- C9 witness events: a run `r1` bound by `WORKER_RUN_INTENT`, then a
stray `WATCHDOG_VERDICT` for run `r2`. -/
def c9_pre : List REvent :=
  [{ type := "WORKER_RUN_INTENT", taskId := some "T1", runId := some "r1",
     idempotencyKey := some "k1", sequenceNumber := some 1, eventId := some "e1" }]

def c9_ev : REvent :=
  { type := "WATCHDOG_VERDICT", taskId := some "T1", runId := some "r2",
    idempotencyKey := some "k2", sequenceNumber := some 2, eventId := some "e2",
    payload := Json.obj [("verdict", Json.str "BLOCK")] }

def c9_task : RTask :=
  { taskId := "T1", state := "assigned", runId := some "r1" }

/-- Witness for C9. -/
theorem run_bound_cross_run_ignored_witness :
    (List.foldl step {} (c9_pre ++ c9_ev :: [])).core.tasks
      = (List.foldl step {} (c9_pre ++ [])).core.tasks :=
  run_bound_cross_run_ignored c9_pre [] c9_ev "T1" c9_task
    (by decide) rfl (by decide) rfl rfl rfl (by decide)
    (fun κ _ _ => Or.inr (fun e' he' => absurd he' (List.not_mem_nil e')))

end Red

/-! ## Orchestrator tick helpers (`tiangong/core/orchestrator.py`)

The orchestrator reads decoded events and appends policy events
through the state manager.  Three of its helpers contain name or
keyword slips that the embedding models as raised Python exceptions:

* `_enforce_block_sequence` (line 133) evaluates `not run_id`, but the
  module binds only `run_id_gen` (`from .ids import run_id as
  run_id_gen`) and the local is `run_id_val`, so a qualifying BLOCK
  verdict raises `NameError: name 'run_id' is not defined` before any
  of the three policy events can be appended.
* `_watchdog_heartbeat` (line 198) and `validate_incoming` (line 621)
  call `_build_event(run_id=...)`, but the function's keyword-only
  parameter is `run_id_str`, so the call raises `TypeError` before the
  event is built.

Timestamps compared by the orchestrator (`_parse_time` results) are
modelled as integers (seconds); `at_ = none` models both a missing
`at` field and a parse failure. -/

namespace Orch

open Red (truthyS pget alistGet)

/-- A decoded event as the orchestrator inspects it. -/
structure OEvent where
  type : String := ""
  eventId : Option String := none
  taskId : Option String := none
  runId : Option String := none
  causationId : Option String := none
  at_ : Option Int := none
  payload : Json := Json.obj []
deriving Repr, DecidableEq

/-- A raised Python exception. -/
inductive PyErr where
  | nameError (name : String)
  | typeError (badKeyword : String)
deriving Repr, DecidableEq

/-- `if ts and (last is None or ts > last): last = ts` — running
maximum of parsed timestamps. -/
def updMax (cur ts : Option Int) : Option Int :=
  match ts with
  | none => cur
  | some t =>
    match cur with
    | none => some t
    | some c => if t > c then some t else cur

/-- The timestamp summary of `_event_index` (orchestrator.py lines
82–120). -/
structure EventIndexInfo where
  last_heartbeat_at : Option Int := none
  last_project_started_at : Option Int := none
  last_project_resumed_at : Option Int := none
  last_project_halted_at : Option Int := none
  last_project_finished_at : Option Int := none
deriving Repr, DecidableEq

/-- The full result of `_event_index`: the halt/abort/close sets and
the timestamp summary. -/
structure EventIndex where
  halted_by_verdict : List String := []
  aborted : List (Option String × Option String) := []
  closed : List (Option String × Option String) := []
  info : EventIndexInfo := {}
deriving Repr, DecidableEq

/-- `PROJECT_HALTED`'s verdict pointer:
`ev.get("causationId") or ev.get("payload", {}).get("verdictEventId")`
(string-valued payloads only; other values are outside the modelled
event space). -/
def haltVerdictId (ev : OEvent) : Option String :=
  if truthyS ev.causationId then ev.causationId
  else
    match pget (if truthy ev.payload then ev.payload else Json.obj []) "verdictEventId" with
    | some (Json.str s) => some s
    | _ => none

/-- `_event_index` (orchestrator.py lines 78–120). -/
def event_index (events : List OEvent) : EventIndex :=
  events.foldl
    (fun idx ev =>
      match ev.type with
      | "PROJECT_HALTED" =>
        let idx1 :=
          if truthyS (haltVerdictId ev) then
            { idx with
              halted_by_verdict := idx.halted_by_verdict ++ [(haltVerdictId ev).getD ""] }
          else idx
        let i1 := { idx1.info with
          last_project_halted_at := updMax idx1.info.last_project_halted_at ev.at_ }
        { idx1 with info := i1 }
      | "WORKER_RUN_ABORTED" =>
        { idx with aborted := idx.aborted ++ [(ev.taskId, ev.runId)] }
      | "RUN_CLOSED" =>
        { idx with closed := idx.closed ++ [(ev.taskId, ev.runId)] }
      | "WATCHDOG_HEARTBEAT" =>
        let i1 := { idx.info with
          last_heartbeat_at := updMax idx.info.last_heartbeat_at ev.at_ }
        { idx with info := i1 }
      | "PROJECT_STARTED" =>
        let i1 := { idx.info with
          last_project_started_at := updMax idx.info.last_project_started_at ev.at_ }
        { idx with info := i1 }
      | "PROJECT_RESUMED" =>
        let i1 := { idx.info with
          last_project_resumed_at := updMax idx.info.last_project_resumed_at ev.at_ }
        { idx with info := i1 }
      | "PROJECT_FINISHED" =>
        let i1 := { idx.info with
          last_project_finished_at := updMax idx.info.last_project_finished_at ev.at_ }
        { idx with info := i1 }
      | _ => idx)
    {}

/-- The loop of `_enforce_block_sequence` (orchestrator.py lines
124–167).  For a `WATCHDOG_VERDICT` with `verdict=BLOCK`, line 133
reads `if not verdict_id or not task_id or not run_id` — short-circuit
skips the event when `verdict_id` or `task_id` is falsy, but with both
truthy the undefined name `run_id` raises `NameError`, so the three
policy appends below the check are unreachable and the function never
appends anything. -/
def enforceLoop : List OEvent → Except PyErr Unit
  | [] => .ok ()
  | ev :: rest =>
    if ev.type ≠ "WATCHDOG_VERDICT" then enforceLoop rest
    else
      let pl := if truthy ev.payload then ev.payload else Json.obj []
      if ¬(pget pl "verdict" == some (Json.str "BLOCK")) then enforceLoop rest
      else if ¬truthyS ev.eventId then enforceLoop rest
      else if ¬truthyS ev.taskId then enforceLoop rest
      else .error (.nameError "run_id")

/-- `_enforce_block_sequence` (orchestrator.py lines 122–167): builds
the event index (no observable effect before the loop) and scans the
verdicts. -/
def enforce_block_sequence (events : List OEvent) : Except PyErr Unit :=
  let _ := event_index events
  enforceLoop events

/-- `_watchdog_heartbeat` (orchestrator.py lines 169–202): skip when
the project is finished or halted, skip when no heartbeat or the
heartbeat is fresh; otherwise the source reaches
`_build_event(..., run_id=None, ...)` on line 198, whose keyword-only
parameter is named `run_id_str`, raising `TypeError` before the
`WATCHDOG_UNRESPONSIVE` event is built or appended. -/
def watchdog_heartbeat (events : List OEvent) (now heartbeat_timeout_sec : Int) :
    Except PyErr Unit :=
  let info := (event_index events).info
  if (match info.last_project_finished_at, info.last_project_started_at with
      | some _, none => true
      | some f, some s => f > s
      | none, _ => false) then .ok ()
  else if (match info.last_project_halted_at, info.last_project_resumed_at with
      | some _, none => true
      | some h, some r => h > r
      | none, _ => false) then .ok ()
  else
    match info.last_heartbeat_at with
    | none => .ok ()
    | some hb =>
      if now - hb < heartbeat_timeout_sec then .ok ()
      else .error (.typeError "run_id")

/-- `validate_incoming` (orchestrator.py lines 606–635): a falsy
`taskId` or a non-worker/watchdog actor is accepted; a worker or
watchdog message whose `runId` is falsy or differs from the currently
locked run for the task reaches `_build_event(..., run_id=expected,
...)` on line 621, raising `TypeError` (the parameter is `run_id_str`)
before the `MESSAGE_IGNORED` event is built, appended, or the reject
signal returned; a matching `runId` is accepted without any append.
The locked run comes from `reduce_events(...).status["locks"]["tasks"]`,
modelled by the reducer embedding. -/
def validate_incoming (events : List Red.REvent) (actor : String)
    (task_id run_id : Option String) (_message_type : String) : Except PyErr Bool :=
  if ¬truthyS task_id then .ok true
  else
    let expected : Option String :=
      (alistGet (Red.reduce_events events).locksTasks (task_id.getD "")).join
    if actor = "worker" ∨ actor = "watchdog" then
      if ¬truthyS run_id ∨ run_id ≠ expected then .error (.typeError "run_id")
      else .ok true
    else .ok true

/-! ### C1, C5, C7: demonstrations at the failing inputs -/

/-- A complete BLOCK verdict, as `S4` injects. -/
def c1_verdict_event : OEvent :=
  { type := "WATCHDOG_VERDICT", eventId := some "e-v1", taskId := some "T1",
    runId := some "r-1", payload := Json.obj [("verdict", Json.str "BLOCK")] }

/-- C1 (code demonstration): on a log holding a `WATCHDOG_VERDICT`
with `verdict=BLOCK` carrying `eventId` and `taskId`,
`_enforce_block_sequence` raises `NameError` on the undefined name
`run_id` (orchestrator.py line 133; the module binds only
`run_id_gen`), so the tick aborts before `PROJECT_HALTED`,
`WORKER_RUN_ABORTED` or `RUN_CLOSED` can be appended. -/
theorem enforce_block_sequence_raises :
    enforce_block_sequence [c1_verdict_event] = .error (.nameError "run_id") := rfl

/-- A heartbeat 400 seconds in the past, as scenario `S3` injects. -/
def c5_heartbeat_event : OEvent :=
  { type := "WATCHDOG_HEARTBEAT", eventId := some "e-h1", at_ := some 0 }

/-- C5 (code demonstration): with the last heartbeat 400 s old and
`heartbeatTimeoutSec = 180`, `_watchdog_heartbeat` passes every
condition of the claim but raises `TypeError` at
`_build_event(run_id=None, ...)` (orchestrator.py line 198; the
parameter is `run_id_str`), so no `WATCHDOG_UNRESPONSIVE` event is
appended; with a fresh heartbeat (now = 100 < 180) it returns without
appending, as the claim's negative half states. -/
theorem watchdog_heartbeat_raises :
    watchdog_heartbeat [c5_heartbeat_event] 400 180 = .error (.typeError "run_id") ∧
    watchdog_heartbeat [c5_heartbeat_event] 100 180 = .ok () :=
  ⟨rfl, rfl⟩

/-- The lock-establishing event for the C7 demonstration. -/
def c7_intent_event : Red.REvent :=
  { type := "WORKER_RUN_INTENT", taskId := some "T1", runId := some "r-1",
    idempotencyKey := some "k1", sequenceNumber := some 1, eventId := some "e1" }

/-- C7 (code demonstration): with run `r-1` locked for task `T1`, a
worker message carrying `runId = r-2` reaches
`_build_event(run_id=expected, ...)` (orchestrator.py line 621) and
raises `TypeError` (the parameter is `run_id_str`) instead of
appending `MESSAGE_IGNORED` and returning the reject signal; a message
carrying the locked `runId = r-1` is accepted without any append, as
the claim's matching half states. -/
theorem validate_incoming_raises :
    validate_incoming [c7_intent_event] "worker" (some "T1") (some "r-2")
      "EVIDENCE_SUBMITTED" = .error (.typeError "run_id") ∧
    validate_incoming [c7_intent_event] "worker" (some "T1") (some "r-1")
      "EVIDENCE_SUBMITTED" = .ok true :=
  ⟨rfl, rfl⟩

end Orch

end Tiankit
